import Mathlib

/-!
A shallow embedding of the interaction/camera controller in
`src/CanvasView.js` (the `CanvasView` React component), together with
proofs about its behaviour.

Numbers that the JavaScript source stores in IEEE doubles are modelled
as exact rationals (`ℚ`) where the code is discrete-valued arithmetic,
and as reals (`ℝ`) where the source uses `Math.PI`.  Timestamps
(`new Date()` differences, milliseconds) are modelled as integers.
External collaborators (the `Surface`, the THREE.js camera projection,
the tutorial manager's step count, DOM measurements) are modelled as
inputs, and the imperative calls made to them are recorded as an
explicit effect trace.
-/

namespace CanvasView

/-! ### Action names and key bindings (constructor, lines 44-68) -/

/-- Source string `"Select Control Point"`. -/
def selectAction : String := "Select Control Point"

/-- Source string `"XY Camera Rotation (←→)"`. -/
def rotXYAction : String := "XY Camera Rotation (←→)"

/-- Source string `"YZ Camera Rotation (↑↓)"`. -/
def rotZAction : String := "YZ Camera Rotation (↑↓)"

/-- Source string `"Zoom"`. -/
def zoomAction : String := "Zoom"

/-- Source string `"Move Control Point Along X Axis"`. -/
def moveXAction : String := "Move Control Point Along X Axis"

/-- Source string `"Move Control Point Along Y Axis"`. -/
def moveYAction : String := "Move Control Point Along Y Axis"

/-- Source string `"Move Control Point Along Z Axis"`. -/
def moveZAction : String := "Move Control Point Along Z Axis"

/-- Source string `"DISPLAY"`. -/
def displayAction : String := "DISPLAY"

/-- Source string `"RESTORE"`. -/
def restoreAction : String := "RESTORE"

/-- Source string `"EXIT"`. -/
def exitAction : String := "EXIT"

/-- Source string `"TUTORIAL"`. -/
def tutorialAction : String := "TUTORIAL"

/-- Source string `"MORPH"`. -/
def morphAction : String := "MORPH"

/-- Source string `"ZOOMTOFIT"`. -/
def zoomToFitAction : String := "ZOOMTOFIT"

/-- The own property names of the `this.actions` object (lines 44-52):
exactly the seven actions bound to a continuous `(delta) => ...` handler.
Every value stored under these keys in the source is a function. -/
def continuousActions : List String :=
  [selectAction, rotXYAction, rotZAction, zoomAction,
   moveXAction, moveYAction, moveZAction]

/-- `_.isFunction(this.actions[action])` for `action` a string or `null`:
the lookup yields a function exactly for the seven keys of `this.actions`
(`this.actions[null]` is `undefined`). -/
def actionHasHandler : Option String → Bool
  | none => false
  | some a => continuousActions.contains a

/-- The `this.keys` key-code table (lines 54-68). -/
def keys : Nat → Option String
  | 85 => some rotXYAction
  | 86 => some rotZAction
  | 73 => some selectAction
  | 87 => some zoomAction
  | 69 => some displayAction
  | 74 => some moveXAction
  | 75 => some moveYAction
  | 76 => some moveZAction
  | 66 => some restoreAction
  | 72 => some exitAction
  | 68 => some tutorialAction
  | 65 => some morphAction
  | 88 => some zoomToFitAction
  | _ => none

/-! ### View state (constructor, lines 31-39) -/

/-- The React component state fields the claims are about.  `action` is
`this.state.action` (`null` or an action name); `tutorial` and
`lastTutorial` use the source's `-1 = inactive` convention;
`lastInteraction` is a millisecond timestamp. -/
structure ViewState where
  action : Option String
  coordinates : Bool
  tutorial : Int
  lastTutorial : Int
  idles : Nat
  lastInteraction : Int
deriving DecidableEq, Repr

/-- The constructor's initial state (lines 31-39), at start time `t0`. -/
def initialState (t0 : Int) : ViewState :=
  { action := none, coordinates := false, tutorial := -1,
    lastTutorial := -1, idles := 0, lastInteraction := t0 }

/-- `updateLastInteraction` (lines 132-137): stamp the interaction time
and reset the idle counter. -/
def updateLastInteraction (now : Int) (s : ViewState) : ViewState :=
  { s with lastInteraction := now, idles := 0 }

/-! ### Camera zoom step (`zoom`, lines 368-373) -/

/-- `zoom(delta)`: `zoomOut = delta > 0`, `factor = zoomOut ? 1.1 : 0.9`,
`this.camera.zoom *= factor`.  Returns the new `camera.zoom`. -/
def zoom (z delta : ℚ) : ℚ :=
  let zoomOut : Bool := delta > 0
  let factor : ℚ := if zoomOut then 1.1 else 0.9
  z * factor

/-! ### Idle monitor tick (`checkLastInteraction`, lines 106-130) -/

/-- Observable outcome of one idle-monitor tick. -/
structure TickResult where
  reloadCalled : Bool
  idles : Nat
  driftStarted : Bool
  rescheduled : Bool
deriving DecidableEq, Repr

/-- `checkLastInteraction` (lines 106-130).  `timeout = 25 * 1000` ms.
When `now - lastInteraction > timeout` and `tutorial < 0`:
`window.location.reload(true)` is reached exactly when `idles > 9`
(the source comment: "if 10 or more idles ... reload everything");
the tick then increments `idles` and starts the ambient
`randomizeCloseToOriginal` drift animation.  The trailing
`window.setTimeout` reschedules the tick on every path. -/
def checkLastInteraction (now lastInteraction tutorial : Int) (idles : Nat) :
    TickResult :=
  let timeout : Int := 25 * 1000
  if now - lastInteraction > timeout ∧ tutorial < 0 then
    { reloadCalled := idles > 9, idles := idles + 1,
      driftStarted := true, rescheduled := true }
  else
    { reloadCalled := false, idles := idles,
      driftStarted := false, rescheduled := true }

/-! ### Vertical camera rotation (`rotateCameraZ`, lines 282-290) -/

/-- Lodash `_.clamp(number, lower, upper)`: first cap at `upper`,
then raise to `lower`. -/
noncomputable def clamp (x lower upper : ℝ) : ℝ :=
  max (min x upper) lower

/-- `rotateCameraZ(delta)`: `altitude += 0.005 * delta`, then
`_.clamp(altitude, -PI/2, PI/2)`.  Returns the new altitude. -/
noncomputable def rotateCameraZ (altitude delta : ℝ) : ℝ :=
  clamp (altitude + 0.005 * delta) (-(Real.pi / 2)) (Real.pi / 2)

/-- The constructor's initial altitude, `Math.PI / 4` (line 76). -/
noncomputable def initialAltitude : ℝ := Real.pi / 4

/-! ### Label placement (`positionCoordinates`, lines 302-338) -/

/-- `Math.round`: round half toward positive infinity. -/
def jsRound (x : ℚ) : Int := ⌊x + 1 / 2⌋

/-- The quadrant-offset screen-space anchor `pt.x` of lines 318-321,
before the on-screen clamps: pixel conversion with `Math.round`, plus
the outward offset `dx`. -/
def naiveAnchorX (px w cw r : ℚ) : ℚ :=
  let dx : ℚ := (if px < 0 then -1 else 1) * w / 2 + (if px < 0 then -1 else 1) * 15
  (jsRound ((px + 1) * cw / (2 * r)) : ℚ) + dx

/-- The quadrant-offset screen-space anchor `pt.y` of lines 319-322,
before the on-screen clamps. -/
def naiveAnchorY (py h ch r : ℚ) : ℚ :=
  let dy : ℚ := (if py < 0 then 1 else -1) * h / 2 + (if py < 0 then 1 else -1) * 15
  (jsRound ((-py + 1) * ch / (2 * r)) : ℚ) + dy

/-- `positionCoordinates` (lines 302-338), for an active control point
whose camera projection has normalized device coordinates `(px, py)`.
`w`/`h` are the label's rounded measured width/height, `cw`/`ch` the
canvas width/height, `r` the device pixel ratio.  Returns the resolved
`(coordinatesX, coordinatesY)` anchor. -/
def positionCoordinates (px py w h cw ch r : ℚ) : ℚ × ℚ :=
  let x0 : ℚ := naiveAnchorX px w cw r
  let y0 : ℚ := naiveAnchorY py h ch r
  -- keep it on the screen... right, then left
  let x1 : ℚ := if x0 + w / 2 > cw then cw - w / 2 else x0
  let x2 : ℚ := if x1 - w / 2 < 0 then w / 2 else x1
  -- bottom, then top
  let y1 : ℚ := if y0 + h / 2 > ch then ch - h / 2 else y0
  let y2 : ℚ := if y1 - h / 2 < 0 then h / 2 else y1
  (x2, y2)

/-! ### Auto-fit solver (`zoomToFit`, lines 375-448)

The source samples `this.surface.patch(u, v).project(this.camera)` for
`u, v` running over `0, 0.1, 0.2, ..., 1.0` (the floating-point loop
`for (u = 0; u <= 1; u += 0.1)` executes exactly 11 times: ten
accumulated additions of the double `0.1` reach `0.9999999999999999`,
still `<= 1`).  The surface and camera are external collaborators, so
the 11×11 grid of projected screen points is an input here, indexed by
the sample positions. -/

/-- A projected screen-space sample (normalized device coordinates). -/
structure Pt2 where
  x : ℚ
  y : ℚ
deriving DecidableEq, Repr

/-- `virtualMinLower` (line 388). -/
def virtualMinLower : ℚ := -0.95

/-- `virtualMinUpper` (line 389). -/
def virtualMinUpper : ℚ := -0.9

/-- `virtualMaxLower` (line 390). -/
def virtualMaxLower : ℚ := 0.9

/-- `virtualMaxUpper` (line 391). -/
def virtualMaxUpper : ℚ := 0.95

/-- `isBad` (lines 393-395): outside the hard bounds. -/
def isBad (x : ℚ) : Bool := x < virtualMinLower || x > virtualMaxUpper

/-- A sample is good when neither of its coordinates `isBad` (the
negation of the condition on line 405). -/
def goodPt (p : Pt2) : Bool := !(isBad p.x || isBad p.y)

/-- `inMinRange` (lines 417-419). -/
def inMinRange (x : ℚ) : Bool := x > virtualMinLower && x < virtualMinUpper

/-- `inMaxRange` (lines 421-423). -/
def inMaxRange (x : ℚ) : Bool := x > virtualMaxLower && x < virtualMaxUpper

/-- The scan accumulator of `zoomToFit`: `inView` plus the running
extrema.  The source initializes `maxX = maxY = -Infinity` and
`minX = minY = Infinity`; `none` stands for those infinities. -/
structure ScanState where
  inView : Bool
  maxX : Option ℚ
  minX : Option ℚ
  maxY : Option ℚ
  minY : Option ℚ
deriving DecidableEq, Repr

/-- `if (x > maxX) maxX = x` with `maxX` possibly `-Infinity`. -/
def updMax (m : Option ℚ) (x : ℚ) : Option ℚ :=
  match m with
  | none => some x
  | some v => if x > v then some x else some v

/-- `if (x < minX) minX = x` with `minX` possibly `Infinity`. -/
def updMin (m : Option ℚ) (x : ℚ) : Option ℚ :=
  match m with
  | none => some x
  | some v => if x < v then some x else some v

/-- Accumulate one good sample into the extrema (lines 410-413). -/
def scanPt (s : ScanState) (p : Pt2) : ScanState :=
  { inView := s.inView,
    maxX := updMax s.maxX p.x, minX := updMin s.minX p.x,
    maxY := updMax s.maxY p.y, minY := updMin s.minY p.y }

/-- One inner `v` loop (lines 399-414): on the first bad sample set
`inView = false` and `break`, skipping the rest of the scan line;
otherwise accumulate extrema. -/
def scanRow (s : ScanState) : List Pt2 → ScanState
  | [] => s
  | p :: ps =>
    if isBad p.x || isBad p.y then { s with inView := false }
    else scanRow (scanPt s p) ps

/-- The outer `u` loop (lines 397-415). -/
def scanGrid (rows : List (List Pt2)) : ScanState :=
  rows.foldl scanRow
    { inView := true, maxX := none, minX := none, maxY := none, minY := none }

/-- `inMinRange(minX)` where `minX` may still be `Infinity`
(`Infinity < -0.9` is false, so the range test fails). -/
def inMinRangeOpt : Option ℚ → Bool
  | none => false
  | some x => inMinRange x

/-- `inMaxRange(maxX)` where `maxX` may still be `-Infinity`
(`-Infinity > 0.9` is false, so the range test fails). -/
def inMaxRangeOpt : Option ℚ → Bool
  | none => false
  | some x => inMaxRange x

/-- The `closeFit` flag computed on line 425. -/
def closeFitOf (s : ScanState) : Bool :=
  inMinRangeOpt s.minX || inMaxRangeOpt s.maxX ||
  inMinRangeOpt s.minY || inMaxRangeOpt s.maxY

/-- The 11 sample indices of one parameter axis, standing for
`u = 0, 0.1, ..., 1.0`. -/
def sampleIdx : List (Fin 11) := [0, 1, 2, 3, 4, 5, 6, 7, 8, 9, 10]

/-- The scan-ordered grid of projected samples (outer `u`, inner `v`). -/
def gridRows (g : Fin 11 → Fin 11 → Pt2) : List (List Pt2) :=
  sampleIdx.map (fun u => sampleIdx.map (fun v => g u v))

/-- Observable outcome of one `zoomToFit` step: the new `camera.zoom`
and whether a follow-up step was scheduled via
`window.requestAnimationFrame`. -/
structure FitStep where
  zoom : ℚ
  rescheduled : Bool
deriving DecidableEq, Repr

/-- One `zoomToFit(speed)` invocation (lines 375-448), given the
projected sample grid `g` and the current `camera.zoom`.  If `inView`
and `closeFit`: return before touching the zoom (no rescheduling).
If `inView` and not `closeFit`: `factor = 1 + 0.1 * speed`.  Otherwise
`factor = 1 - 0.1 * speed`.  Apply the factor and reschedule. -/
def zoomToFit (g : Fin 11 → Fin 11 → Pt2) (speed z : ℚ) : FitStep :=
  let s := scanGrid (gridRows g)
  if s.inView then
    if closeFitOf s then { zoom := z, rescheduled := false }
    else { zoom := z * (1 + 0.1 * speed), rescheduled := true }
  else { zoom := z * (1 - 0.1 * speed), rescheduled := true }

/-- The minimum of a list of rationals (head-seeded fold; the grid is
never empty). -/
def listMin : List ℚ → ℚ
  | [] => 0
  | x :: xs => xs.foldl min x

/-- The maximum of a list of rationals (head-seeded fold). -/
def listMax : List ℚ → ℚ
  | [] => 0
  | x :: xs => xs.foldl max x

/-- All 121 samples in scan order. -/
def gridPts (g : Fin 11 → Fin 11 → Pt2) : List Pt2 := (gridRows g).flatten

/-- The least sampled `x` over the whole grid. -/
def gridMinX (g : Fin 11 → Fin 11 → Pt2) : ℚ := listMin ((gridPts g).map Pt2.x)

/-- The greatest sampled `x` over the whole grid. -/
def gridMaxX (g : Fin 11 → Fin 11 → Pt2) : ℚ := listMax ((gridPts g).map Pt2.x)

/-- The least sampled `y` over the whole grid. -/
def gridMinY (g : Fin 11 → Fin 11 → Pt2) : ℚ := listMin ((gridPts g).map Pt2.y)

/-- The greatest sampled `y` over the whole grid. -/
def gridMaxY (g : Fin 11 → Fin 11 → Pt2) : ℚ := listMax ((gridPts g).map Pt2.y)

/-! ### Key and wheel events (`onKeyDown` lines 164-244, `onWheel` lines 246-259)

React's `setState` is not read back within a single handler here (no
state field is read after being written in the same call), so the
handlers are modelled as eager state transformers.  Calls made to the
external surface, window and tutorial collaborators are recorded in an
effect trace. -/

/-- Imperative calls `onKeyDown`/`onWheel` make on external
collaborators, in program order. -/
inductive Effect where
  | reload
  | surfaceStop
  | surfaceRandomize
  | surfaceActivateControls
  | surfaceDeactivateControls
  | surfaceSetAxis (axis : Option String)
  | surfaceUpdate
  | surfaceRestore
  | surfaceNextDisplay
  | zoomToFitCall
  | positionCoords
  | tutorialCall (step : Int)
  | draw
deriving DecidableEq, Repr

/-- Result of a key event: the new component state plus the effect
trace. -/
structure KeyDownResult where
  state : ViewState
  effects : List Effect
deriving DecidableEq, Repr

/-- `this.tutorial(stage)` (lines 491-510), with `steps` the external
`tutorialManager.steps`. -/
def tutorialStep (steps : Int) (s : ViewState) (stage : Int) : ViewState :=
  if steps > 0 ∧ stage ≥ steps then
    { s with lastTutorial := -1, tutorial := -1 }
  else
    { s with lastTutorial := s.tutorial, tutorial := stage }

/-- The per-action branch chain of `onKeyDown` (lines 196-241), plus
the final `this.draw()` (line 243).  `controls` is the external
`this.surface.controls` presence flag.  The `MORPH` branch invokes
`this.onClick` (lines 156-162): a second `updateLastInteraction` (a
no-op here, the stamp is already set), `surface.stop()` and
`surface.randomize(...)`.  The trailing `else` branch (lines 238-241)
hides the coordinate display and deactivates the point-editing
controls for `null` and for every remaining action name. -/
def keyBranch (controls : Bool) (action : Option String) (s : ViewState) :
    KeyDownResult :=
  if action = some morphAction then
    ⟨s, [.surfaceStop, .surfaceRandomize, .draw]⟩
  else if action = some zoomToFitAction then
    ⟨s, [.zoomToFitCall, .draw]⟩
  else if action = some selectAction then
    if !controls then
      ⟨{ s with coordinates := true },
       [.surfaceActivateControls, .positionCoords, .draw]⟩
    else
      ⟨s, [.surfaceSetAxis none, .surfaceUpdate, .draw]⟩
  else if action = some moveXAction ∨ action = some moveYAction ∨
          action = some moveZAction then
    let axis : String :=
      if action = some moveXAction then "x"
      else if action = some moveYAction then "y" else "z"
    if !controls then
      ⟨{ s with coordinates := true },
       [.surfaceStop, .surfaceSetAxis (some axis), .surfaceActivateControls,
        .positionCoords, .surfaceUpdate, .draw]⟩
    else
      ⟨s, [.surfaceStop, .surfaceSetAxis (some axis), .surfaceUpdate, .draw]⟩
  else if action = some restoreAction then
    ⟨s, [.surfaceStop, .surfaceRestore, .draw]⟩
  else if action = some displayAction then
    ⟨s, [.surfaceNextDisplay, .draw]⟩
  else
    ⟨{ s with coordinates := false }, [.surfaceDeactivateControls, .draw]⟩

/-- `onKeyDown` after the key lookup, applied to the looked-up entry
`k = this.keys[code]` (`none` when `!(code in this.keys)`).
Follows lines 164-244 in order: `updateLastInteraction`; return on an
unmapped code; toggle the resolved action to `null` when it equals the
selected one (unless it is `TUTORIAL`); the
`preventKeysExceptTutorial` guard; the `EXIT` reload; the tutorial
branch (which returns early); recording `lastTutorial` and clearing
`tutorial`; the guarded `setState({ action })`; the branch chain. -/
def onKeyDownAction (controls : Bool) (steps : Int) (prevent : Bool)
    (now : Int) (s0 : ViewState) (k : Option String) : KeyDownResult :=
  let s := updateLastInteraction now s0
  match k with
  | none => ⟨s, []⟩
  | some a0 =>
    let action : Option String :=
      if some a0 = s.action ∧ a0 ≠ tutorialAction then none else some a0
    if prevent ∧ action ≠ some tutorialAction then ⟨s, []⟩
    else
      let reloadEff : List Effect :=
        if action = some exitAction then [.reload] else []
      if action = some tutorialAction then
        let step : Int :=
          (if s.lastTutorial ≥ 0 ∧ s.tutorial = -1 then s.lastTutorial
           else s.tutorial) + 1
        ⟨tutorialStep steps s step, reloadEff ++ [.tutorialCall step]⟩
      else
        let s1 := { s with
          lastTutorial := if s.tutorial ≥ 0 then s.tutorial else s.lastTutorial,
          tutorial := -1 }
        let s2 := if actionHasHandler action || action = none
                  then { s1 with action := action } else s1
        let r := keyBranch controls action s2
        ⟨r.state, reloadEff ++ r.effects⟩

/-- `onKeyDown(e)` for key code `code` (lines 164-244). -/
def onKeyDown (controls : Bool) (steps : Int) (prevent : Bool)
    (now : Int) (s : ViewState) (code : Nat) : KeyDownResult :=
  onKeyDownAction controls steps prevent now s (keys code)

/-- Result of a wheel event: the new component state, the handler
invocation (action name and the delta it receives) if any, and whether
`this.draw()` ran. -/
structure WheelResult where
  state : ViewState
  handlerCall : Option (String × ℚ)
  drew : Bool
deriving DecidableEq, Repr

/-- `onWheel(e)` (lines 246-259): `updateLastInteraction`; return
unless the selected action is a key of `this.actions`; otherwise call
`this.actions[action](-e.deltaY)` and `this.draw()`. -/
def onWheel (now : Int) (s : ViewState) (deltaY : ℚ) : WheelResult :=
  let s1 := updateLastInteraction now s
  match s.action with
  | none => ⟨s1, none, false⟩
  | some a =>
    if continuousActions.contains a then ⟨s1, some (a, -deltaY), true⟩
    else ⟨s1, none, false⟩

/-- The C10 invariant: the stored selected action is `null` or one of
the seven names bound to a continuous handler. -/
def validAction (a : Option String) : Prop :=
  a = none ∨ actionHasHandler a = true

/-! ## Theorems -/

/-! ### C4: multiplicative zoom keeps `camera.zoom` positive -/

theorem zoom_eq (w d : ℚ) : zoom w d = w * (if 0 < d then 1.1 else 0.9) := by
  rcases lt_or_ge 0 d with h | h
  · simp [zoom, h]
  · simp [zoom, not_lt.mpr h]

theorem zoom_pos {z : ℚ} (hz : 0 < z) (d : ℚ) : 0 < zoom z d := by
  rw [zoom_eq]
  split <;> positivity

theorem foldl_zoom_pos (ds : List ℚ) : ∀ {z : ℚ}, 0 < z → 0 < ds.foldl zoom z := by
  induction ds with
  | nil => intro z hz; simpa using hz
  | cons d ds ih => intro z hz; exact ih (zoom_pos hz d)

/-- C4: starting from any positive `camera.zoom`, every sequence of
`zoom` calls leaves it strictly positive, and each call multiplies the
zoom by exactly `1.1` when `delta > 0` and by `0.9` otherwise. -/
theorem C4_zoom_stays_positive (z : ℚ) (hz : 0 < z) (ds : List ℚ) :
    0 < ds.foldl zoom z ∧
    ∀ w d : ℚ, zoom w d = w * (if 0 < d then 1.1 else 0.9) := by
  exact ⟨foldl_zoom_pos ds hz, zoom_eq⟩

/-- Witness for C4 at `zoom = 1` and deltas `[5, -3, 0]`. -/
theorem C4_zoom_stays_positive_witness :
    (0 : ℚ) < 1 ∧ 0 < ([5, -3, 0] : List ℚ).foldl zoom 1 :=
  ⟨by norm_num, (C4_zoom_stays_positive 1 (by norm_num) [5, -3, 0]).1⟩

/-! ### C2: idle-monitor reset threshold

The claim states that an elapsed tick with `idleCount = 9` takes the
reload path.  The source guard is `this.state.idles > 9`, so at
`idles = 9` no reload happens: the count is incremented to 10 and the
ambient drift starts.  The reload path is first taken at `idles = 10`,
matching the source comment "if 10 or more idles". -/

/-- C2 counterexample: an elapsed, tutorial-inactive tick with the
stored idle count exactly 9 does not reload; it increments the count
and starts the drift animation. -/
theorem C2_counterexample :
    (checkLastInteraction 26000 0 (-1) 9).reloadCalled = false ∧
    (checkLastInteraction 26000 0 (-1) 9).idles = 10 ∧
    (checkLastInteraction 26000 0 (-1) 9).driftStarted = true := by
  decide

/-- C2 (amended): on a tick with elapsed time strictly above the
25-second period and no tutorial active, the reload path is taken
exactly when the stored idle count exceeds 9 (so at 10 it is, and at
9 or 8 it is not); the count is always incremented, the drift
animation started, and the next tick scheduled. -/
theorem C2_idle_reset_threshold (now last tut : Int) (idles : Nat)
    (helapsed : now - last > 25 * 1000) (htut : tut < 0) :
    ((checkLastInteraction now last tut idles).reloadCalled = true ↔ 9 < idles) ∧
    (checkLastInteraction now last tut idles).idles = idles + 1 ∧
    (checkLastInteraction now last tut idles).driftStarted = true ∧
    (checkLastInteraction now last tut idles).rescheduled = true := by
  have hcond : now - last > 25 * 1000 ∧ tut < 0 := ⟨helapsed, htut⟩
  unfold checkLastInteraction
  rw [if_pos hcond]
  refine ⟨?_, rfl, rfl, rfl⟩
  simp

/-- Witness for C2 at a concrete elapsed tick with idle count 10. -/
theorem C2_idle_reset_threshold_witness :
    ((26000 : Int) - 0 > 25 * 1000 ∧ (-1 : Int) < 0) ∧
    (checkLastInteraction 26000 0 (-1) 10).reloadCalled = true :=
  ⟨⟨by norm_num, by norm_num⟩,
   (C2_idle_reset_threshold 26000 0 (-1) 10 (by norm_num) (by norm_num)).1.mpr
     (by norm_num)⟩

/-! ### C3: vertical rotation clamps altitude to `[-π/2, π/2]` -/

theorem clamp_mem_Icc (x : ℝ) {lower upper : ℝ} (h : lower ≤ upper) :
    clamp x lower upper ∈ Set.Icc lower upper :=
  ⟨le_max_right _ _, max_le (le_trans (min_le_right _ _) le_rfl) h⟩

theorem rotateCameraZ_mem (a d : ℝ) :
    rotateCameraZ a d ∈ Set.Icc (-(Real.pi / 2)) (Real.pi / 2) :=
  clamp_mem_Icc _ (by linarith [Real.pi_pos])

theorem foldl_rotateCameraZ_mem (ds : List ℝ) :
    ∀ {a : ℝ}, a ∈ Set.Icc (-(Real.pi / 2)) (Real.pi / 2) →
      ds.foldl rotateCameraZ a ∈ Set.Icc (-(Real.pi / 2)) (Real.pi / 2) := by
  induction ds with
  | nil => intro a ha; simpa using ha
  | cons d ds ih => intro a _; exact ih (rotateCameraZ_mem a d)

/-- C3: from the initial altitude `π/4`, every sequence of
`rotateCameraZ` calls keeps the altitude inside `[-π/2, π/2]`; a call
whose unclamped update lands above `π/2` yields exactly `π/2`, and one
landing below `-π/2` yields exactly `-π/2`. -/
theorem C3_altitude_clamped :
    (∀ ds : List ℝ,
      ds.foldl rotateCameraZ initialAltitude ∈
        Set.Icc (-(Real.pi / 2)) (Real.pi / 2)) ∧
    (∀ a d : ℝ, Real.pi / 2 < a + 0.005 * d → rotateCameraZ a d = Real.pi / 2) ∧
    (∀ a d : ℝ, a + 0.005 * d < -(Real.pi / 2) →
      rotateCameraZ a d = -(Real.pi / 2)) := by
  have hpi := Real.pi_pos
  refine ⟨fun ds => foldl_rotateCameraZ_mem ds ⟨by unfold initialAltitude; linarith,
    by unfold initialAltitude; linarith⟩, fun a d h => ?_, fun a d h => ?_⟩
  · unfold rotateCameraZ clamp
    rw [min_eq_right h.le, max_eq_left (by linarith)]
  · unfold rotateCameraZ clamp
    rw [min_eq_left (by linarith), max_eq_right h.le]

/-- Witness for C3: a huge positive delta from altitude 0 clamps to
exactly `π/2`. -/
theorem C3_altitude_clamped_witness :
    Real.pi / 2 < 0 + 0.005 * 1000 ∧ rotateCameraZ 0 1000 = Real.pi / 2 := by
  have h : Real.pi / 2 < 0 + 0.005 * 1000 := by
    have := Real.pi_lt_d2
    norm_num
    linarith
  exact ⟨h, C3_altitude_clamped.2.1 0 1000 h⟩

/-! ### C9: label placement clamps -/

/-- C9: when the naive anchor would push the label's right edge past
the canvas width, the resolved `x` is exactly `canvasWidth - width/2`;
and (for a label that fits the canvas) the resolved anchor keeps the
label's bounding box inside the viewport on all four sides. -/
theorem C9_label_clamps (px py w h cw ch r : ℚ)
    (hw : w ≤ cw) (hh : h ≤ ch) :
    (naiveAnchorX px w cw r + w / 2 > cw →
      (positionCoordinates px py w h cw ch r).1 = cw - w / 2) ∧
    0 ≤ (positionCoordinates px py w h cw ch r).1 - w / 2 ∧
    (positionCoordinates px py w h cw ch r).1 + w / 2 ≤ cw ∧
    0 ≤ (positionCoordinates px py w h cw ch r).2 - h / 2 ∧
    (positionCoordinates px py w h cw ch r).2 + h / 2 ≤ ch := by
  unfold positionCoordinates
  refine ⟨fun hover => ?_, ?_, ?_, ?_, ?_⟩ <;>
    simp only [] <;> split_ifs <;> linarith

/-- Witness for C9: a point projected near the right edge with a
20-pixel-wide label on a 100-pixel canvas resolves to `x = 90`. -/
theorem C9_label_clamps_witness :
    ((20 : ℚ) ≤ 100 ∧ (10 : ℚ) ≤ 100 ∧
      naiveAnchorX 0.99 20 100 1 + 20 / 2 > 100) ∧
    (positionCoordinates 0.99 0 20 10 100 100 1).1 = 100 - 20 / 2 :=
  ⟨⟨by norm_num, by norm_num, by norm_num [naiveAnchorX, jsRound]⟩,
   (C9_label_clamps 0.99 0 20 10 100 100 1 (by norm_num) (by norm_num)).1
     (by norm_num [naiveAnchorX, jsRound])⟩

/-! ### C6: unmapped key codes

The claim says an unmapped key code leaves the entire view state,
including the idle count and the last-interaction timestamp,
unchanged.  But `onKeyDown` calls `updateLastInteraction()` *before*
the `if (!(code in this.keys)) return` check (lines 166-170), so an
unmapped key still stamps the interaction time and resets the idle
counter.  Everything else is indeed untouched and no surface or
redraw call happens. -/

/-- C6 counterexample: key code 99 is unmapped, yet pressing it
changes the state (the idle counter 5 is reset to 0). -/
theorem C6_counterexample :
    keys 99 = none ∧
    (onKeyDown false 0 false 100 { initialState 0 with idles := 5 } 99).state ≠
      { initialState 0 with idles := 5 } ∧
    (onKeyDown false 0 false 100 { initialState 0 with idles := 5 } 99).state.idles
      = 0 := by
  decide

/-- C6 (amended): for an unmapped key code, `onKeyDown` leaves the
selected action, coordinate visibility, tutorial stage and every other
state field unchanged and performs no surface, tutorial, reload or
redraw call — except that it first registers the interaction, stamping
`lastInteraction` and resetting the idle count to 0. -/
theorem C6_unmapped_key (controls : Bool) (steps : Int) (prevent : Bool)
    (now : Int) (s : ViewState) (code : Nat) (hcode : keys code = none) :
    onKeyDown controls steps prevent now s code =
      ⟨{ s with lastInteraction := now, idles := 0 }, []⟩ := by
  simp [onKeyDown, onKeyDownAction, hcode, updateLastInteraction]

/-- Witness for C6 at the unmapped key code 99. -/
theorem C6_unmapped_key_witness :
    onKeyDown false 0 false 100 (initialState 0) 99 =
      ⟨{ initialState 0 with lastInteraction := 100, idles := 0 }, []⟩ :=
  C6_unmapped_key false 0 false 100 (initialState 0) 99 rfl

/-! ### C7: wheel events require a selected continuous action -/

/-- C7: `onWheel` is a no-op (no handler invoked, no redraw, no state
change beyond registering the interaction) when no action is selected
or the selected action has no continuous handler; with a continuous
action selected it invokes that action's handler with `-deltaY` and
then requests a redraw. -/
theorem C7_onWheel_dispatch (now : Int) (s : ViewState) (dy : ℚ) :
    (actionHasHandler s.action = false →
      onWheel now s dy = ⟨updateLastInteraction now s, none, false⟩) ∧
    (∀ a, s.action = some a → actionHasHandler s.action = true →
      onWheel now s dy = ⟨updateLastInteraction now s, some (a, -dy), true⟩) := by
  constructor
  · intro hno
    unfold onWheel
    rcases hs : s.action with _ | b
    · rfl
    · rw [hs] at hno
      simp only [actionHasHandler] at hno
      dsimp only
      rw [if_neg (by rw [hno]; simp)]
  · intro a ha hyes
    rw [ha] at hyes
    simp only [actionHasHandler] at hyes
    unfold onWheel
    rw [ha]
    dsimp only
    rw [if_pos hyes]

/-- Witness for C7: with `Zoom` selected, a wheel delta of 3 invokes
the zoom handler with `-3` and redraws. -/
theorem C7_onWheel_dispatch_witness :
    onWheel 7 { initialState 0 with action := some zoomAction } 3 =
      ⟨updateLastInteraction 7 { initialState 0 with action := some zoomAction },
       some (zoomAction, -3), true⟩ :=
  (C7_onWheel_dispatch 7 { initialState 0 with action := some zoomAction } 3).2
    zoomAction rfl (by decide)

/-! ### C10: only continuous actions (or `null`) are ever stored -/

theorem keyBranch_action (controls : Bool) (a : Option String) (s : ViewState) :
    (keyBranch controls a s).state.action = s.action := by
  unfold keyBranch
  split_ifs <;> rfl

theorem onWheel_state (now : Int) (s : ViewState) (dy : ℚ) :
    (onWheel now s dy).state = updateLastInteraction now s := by
  unfold onWheel
  rcases s.action with _ | a
  · rfl
  · dsimp only
    split_ifs <;> rfl

theorem tutorialStep_action (steps : Int) (s : ViewState) (stage : Int) :
    (tutorialStep steps s stage).action = s.action := by
  unfold tutorialStep
  split_ifs <;> rfl

/-- C10: `onKeyDown` preserves the invariant that the stored selected
action is `null` or one of the seven continuous-handler names (the
guarded `setState` on line 192 only ever stores such a value, so
discrete names are never stored); `onWheel` never changes the stored
action, and whenever its guard passes, the invoked handler is one of
the seven continuous handlers. -/
theorem C10_stored_action_valid :
    (∀ (controls : Bool) (steps : Int) (prevent : Bool) (now : Int)
        (s : ViewState) (code : Nat), validAction s.action →
      validAction (onKeyDown controls steps prevent now s code).state.action) ∧
    (∀ (now : Int) (s : ViewState) (dy : ℚ),
      (onWheel now s dy).state.action = s.action) ∧
    (∀ (now : Int) (s : ViewState) (dy : ℚ) (a : String) (arg : ℚ),
      (onWheel now s dy).handlerCall = some (a, arg) →
      actionHasHandler (some a) = true) := by
  refine ⟨?_, ?_, ?_⟩
  · intro controls steps prevent now s code hv
    unfold onKeyDown onKeyDownAction
    cases hk : keys code with
    | none => simpa [updateLastInteraction] using hv
    | some a0 =>
      simp only [updateLastInteraction]
      split_ifs with h1 h2 h3 h4 h5 <;>
        simp_all [keyBranch_action, tutorialStep_action, validAction,
          updateLastInteraction, actionHasHandler]
  · intro now s dy
    rw [onWheel_state]
    rfl
  · intro now s dy a arg h
    unfold onWheel at h
    rcases hs : s.action with _ | b
    · rw [hs] at h; simp at h
    · rw [hs] at h
      dsimp only at h
      by_cases hb : continuousActions.contains b = true
      · rw [if_pos hb] at h
        dsimp only at h
        have hpair := Option.some.inj h
        have hba : b = a := congrArg Prod.fst hpair
        subst hba
        simpa [actionHasHandler] using hb
      · rw [if_neg hb] at h
        dsimp only at h
        exact absurd h (by simp)

/-- Witness for C10: the invariant holds after pressing the `Zoom`
key from the initial state. -/
theorem C10_stored_action_valid_witness :
    validAction (onKeyDown false 0 false 0 (initialState 0) 87).state.action :=
  C10_stored_action_valid.1 false 0 false 0 (initialState 0) 87 (Or.inl rfl)

/-! ### C5: toggle semantics of repeated key presses

The claim states that *every* mapped key, pressed twice in a row,
leaves the selected action `null`.  That is only true of keys mapped
to continuous-handler actions starting from a state where that action
is not already selected: the guarded `setState` on line 192 never
stores a discrete action name, so pressing a discrete key (`MORPH`,
`ZOOMTOFIT`, `RESTORE`, `DISPLAY`, `EXIT`) twice leaves whatever was
selected before — e.g. `Zoom` — still selected, not `null`. -/

theorem contains_ne_tutorial {a : String}
    (h : continuousActions.contains a = true) : a ≠ tutorialAction := by
  intro he
  subst he
  revert h
  decide

theorem onKeyDownAction_select (controls : Bool) (steps now : Int)
    (s : ViewState) (a0 : String) (hhand : actionHasHandler (some a0) = true)
    (hne : s.action ≠ some a0) :
    (onKeyDownAction controls steps false now s (some a0)).state.action = some a0 := by
  have htut : a0 ≠ tutorialAction :=
    contains_ne_tutorial (by simpa [actionHasHandler] using hhand)
  unfold onKeyDownAction
  dsimp only
  have hc1 : (some a0 = (updateLastInteraction now s).action ∧
      a0 ≠ tutorialAction) = False :=
    eq_false fun h => hne h.1.symm
  have hc2 : (some a0 = some tutorialAction) = False :=
    eq_false fun h => htut (Option.some.inj h)
  simp only [hc1, if_false, Bool.false_eq_true, false_and, hc2]
  rw [keyBranch_action]
  simp [hhand]

theorem onKeyDownAction_toggle_off (controls : Bool) (steps now : Int)
    (s : ViewState) (a0 : String) (hhand : actionHasHandler (some a0) = true)
    (heq : s.action = some a0) :
    (onKeyDownAction controls steps false now s (some a0)).state.action = none := by
  have htut : a0 ≠ tutorialAction :=
    contains_ne_tutorial (by simpa [actionHasHandler] using hhand)
  unfold onKeyDownAction
  dsimp only
  have hc1 : (some a0 = (updateLastInteraction now s).action ∧
      a0 ≠ tutorialAction) = True :=
    eq_true ⟨heq.symm, htut⟩
  have hc2 : ((none : Option String) = some tutorialAction) = False := by simp
  simp only [hc1, if_true, Bool.false_eq_true, false_and, if_false, hc2]
  rw [keyBranch_action]
  simp

theorem onKeyDownAction_discrete (controls : Bool) (steps now : Int)
    (s : ViewState) (a0 : String) (hhand : actionHasHandler (some a0) = false)
    (htut : a0 ≠ tutorialAction) (hne : s.action ≠ some a0) :
    (onKeyDownAction controls steps false now s (some a0)).state.action = s.action := by
  unfold onKeyDownAction
  dsimp only
  have hc1 : (some a0 = (updateLastInteraction now s).action ∧
      a0 ≠ tutorialAction) = False :=
    eq_false fun h => hne h.1.symm
  have hc2 : (some a0 = some tutorialAction) = False :=
    eq_false fun h => htut (Option.some.inj h)
  simp only [hc1, if_false, Bool.false_eq_true, false_and, hc2]
  rw [keyBranch_action]
  simp [hhand, updateLastInteraction]

/-- C5 counterexample: select `Zoom` (key 87), then press the mapped
key 66 (`RESTORE`) twice with no other input; the selected action is
still `Zoom`, not `null`. -/
theorem C5_counterexample :
    keys 66 = some restoreAction ∧
    (onKeyDown false 0 false 2
      (onKeyDown false 0 false 1
        (onKeyDown false 0 false 0 (initialState 0) 87).state 66).state
      66).state.action ≠ none ∧
    (onKeyDown false 0 false 2
      (onKeyDown false 0 false 1
        (onKeyDown false 0 false 0 (initialState 0) 87).state 66).state
      66).state.action = some zoomAction := by
  refine ⟨rfl, ?_, ?_⟩ <;> decide

/-- C5 (amended): pressing a key mapped to a continuous-handler action
that is not currently selected selects it, and a second press of the
same key deselects it (`null`); a key mapped to a discrete action that
is not currently selected leaves the selected action unchanged on
every press; and the tutorial-advance key never changes the selected
action. -/
theorem C5_repeat_key_toggle :
    (∀ (c : Nat) (a : String), keys c = some a →
      actionHasHandler (some a) = true →
      ∀ (s : ViewState) (k1 k2 : Bool) (st1 st2 now1 now2 : Int),
        s.action ≠ some a →
        (onKeyDown k1 st1 false now1 s c).state.action = some a ∧
        (onKeyDown k2 st2 false now2
          (onKeyDown k1 st1 false now1 s c).state c).state.action = none) ∧
    (∀ (c : Nat) (a : String), keys c = some a →
      actionHasHandler (some a) = false → a ≠ tutorialAction →
      ∀ (s : ViewState) (k : Bool) (st now : Int), s.action ≠ some a →
        (onKeyDown k st false now s c).state.action = s.action) ∧
    (∀ (s : ViewState) (k prevent : Bool) (st now : Int),
      (onKeyDown k st prevent now s 68).state.action = s.action) := by
  refine ⟨?_, ?_, ?_⟩
  · intro c a hc hhand s k1 k2 st1 st2 now1 now2 hne
    have h1 : (onKeyDown k1 st1 false now1 s c).state.action = some a := by
      rw [onKeyDown, hc]
      exact onKeyDownAction_select k1 st1 now1 s a hhand hne
    refine ⟨h1, ?_⟩
    rw [onKeyDown, hc]
    exact onKeyDownAction_toggle_off k2 st2 now2 _ a hhand h1
  · intro c a hc hhand htut s k st now hne
    rw [onKeyDown, hc]
    exact onKeyDownAction_discrete k st now s a hhand htut hne
  · intro s k prevent st now
    have hc : keys 68 = some tutorialAction := rfl
    rw [onKeyDown, hc]
    unfold onKeyDownAction
    dsimp only
    have hc1 : (some tutorialAction = (updateLastInteraction now s).action ∧
        tutorialAction ≠ tutorialAction) = False :=
      eq_false fun h => h.2 rfl
    have hc3 : (prevent = true ∧
        (some tutorialAction : Option String) ≠ some tutorialAction) = False := by
      simp
    simp only [hc1, if_false, hc3, if_true]
    rw [tutorialStep_action]
    rfl

/-- Witness for C5: pressing the `Zoom` key (87) twice from the
initial state selects `Zoom` and then deselects it. -/
theorem C5_repeat_key_toggle_witness :
    (onKeyDown false 0 false 0 (initialState 0) 87).state.action = some zoomAction ∧
    (onKeyDown false 0 false 1
      (onKeyDown false 0 false 0 (initialState 0) 87).state 87).state.action = none :=
  C5_repeat_key_toggle.1 87 zoomAction rfl (by decide)
    (initialState 0) false false 0 0 0 1 (by decide)

/-! ### C8: the generic branch always hides the coordinate display

The claim says that in the trailing `else` branch of `onKeyDown` only
a deselect transition (resolved action `null`) hides the coordinate
display and deactivates the controls, while selecting a different
generic action leaves them unchanged.  In the source the `else` branch
(lines 238-241) runs `setState({ coordinates: false })` and
`surface.deactivateControls()` unconditionally — for `null` *and* for
every generic action name. -/

theorem keyBranch_else (controls : Bool) (a : Option String) (s : ViewState)
    (h1 : a ≠ some morphAction) (h2 : a ≠ some zoomToFitAction)
    (h3 : a ≠ some selectAction) (h4 : a ≠ some moveXAction)
    (h5 : a ≠ some moveYAction) (h6 : a ≠ some moveZAction)
    (h7 : a ≠ some restoreAction) (h8 : a ≠ some displayAction) :
    keyBranch controls a s =
      ⟨{ s with coordinates := false }, [.surfaceDeactivateControls, .draw]⟩ := by
  unfold keyBranch
  rw [if_neg h1, if_neg h2, if_neg h3, if_neg (by simp [h4, h5, h6]),
    if_neg h7, if_neg h8]

/-- C8 counterexample: activate point editing with key 73 (so the
coordinate display is visible and `Select Control Point` is selected),
then press key 87 (`Zoom`) — a selection of a *different* generic
action, not a deselect.  The coordinate display is hidden anyway. -/
theorem C8_counterexample :
    (onKeyDown false 0 false 0 (initialState 0) 73).state.coordinates = true ∧
    (onKeyDown false 0 false 0 (initialState 0) 73).state.action
      = some selectAction ∧
    (onKeyDown true 0 false 1
      (onKeyDown false 0 false 0 (initialState 0) 73).state 87).state.action
      = some zoomAction ∧
    (onKeyDown true 0 false 1
      (onKeyDown false 0 false 0 (initialState 0) 73).state 87).state.coordinates
      = false ∧
    Effect.surfaceDeactivateControls ∈
      (onKeyDown true 0 false 1
        (onKeyDown false 0 false 0 (initialState 0) 73).state 87).effects := by
  refine ⟨?_, ?_, ?_, ?_, ?_⟩ <;> decide

/-- C8 (amended): every press whose mapped action reaches the generic
branch — whether it resolves to a deselect (`null`) or to a generic
action name such as a camera rotation or `Zoom` — hides the coordinate
display and deactivates the point-editing controls. -/
theorem C8_generic_branch_hides (controls : Bool) (steps now : Int)
    (s : ViewState) (c : Nat) (a0 : String) (hc : keys c = some a0)
    (hgen : a0 ∉ [morphAction, zoomToFitAction, selectAction, moveXAction,
      moveYAction, moveZAction, restoreAction, displayAction,
      tutorialAction, exitAction]) :
    (onKeyDown controls steps false now s c).state.coordinates = false ∧
    Effect.surfaceDeactivateControls ∈
      (onKeyDown controls steps false now s c).effects := by
  simp only [List.mem_cons, List.mem_singleton, not_or] at hgen
  obtain ⟨hmo, hzf, hse, hmx, hmy, hmz, hre, hdi, htu, hex, -⟩ := hgen
  rw [onKeyDown, hc]
  unfold onKeyDownAction
  dsimp only
  by_cases hc1 : some a0 = (updateLastInteraction now s).action ∧ a0 ≠ tutorialAction
  · simp only [eq_true hc1, if_true, Bool.false_eq_true, false_and, if_false]
    have hc2 : ((none : Option String) = some tutorialAction) = False := by simp
    have hcex : ((none : Option String) = some exitAction) = False := by simp
    simp only [hc2, hcex, if_false]
    rw [keyBranch_else controls none _ (by simp) (by simp) (by simp) (by simp)
      (by simp) (by simp) (by simp) (by simp)]
    exact ⟨rfl, by simp⟩
  · simp only [eq_false hc1, if_false, Bool.false_eq_true, false_and]
    have hc2 : (some a0 = some tutorialAction) = False :=
      eq_false fun h => htu (Option.some.inj h)
    have hcex : (some a0 = some exitAction) = False :=
      eq_false fun h => hex (Option.some.inj h)
    simp only [hc2, hcex, if_false]
    rw [keyBranch_else controls (some a0) _ (by simp [hmo]) (by simp [hzf])
      (by simp [hse]) (by simp [hmx]) (by simp [hmy]) (by simp [hmz])
      (by simp [hre]) (by simp [hdi])]
    exact ⟨rfl, by simp⟩

/-- Witness for C8: pressing the `Zoom` key (87) from the initial
state reaches the generic branch and hides the coordinate display. -/
theorem C8_generic_branch_hides_witness :
    (onKeyDown false 0 false 0 (initialState 0) 87).state.coordinates = false ∧
    Effect.surfaceDeactivateControls ∈
      (onKeyDown false 0 false 0 (initialState 0) 87).effects :=
  C8_generic_branch_hides false 0 0 (initialState 0) 87 zoomAction rfl (by decide)

/-! ### C1: one auto-fit step -/

theorem scanPt_inView (s : ScanState) (p : Pt2) : (scanPt s p).inView = s.inView := rfl

theorem scanRow_inView (ps : List Pt2) : ∀ s : ScanState,
    (scanRow s ps).inView = (s.inView && ps.all goodPt) := by
  induction ps with
  | nil => intro s; simp [scanRow]
  | cons p ps ih =>
    intro s
    cases hp : (isBad p.x || isBad p.y) with
    | true => simp [scanRow, hp, goodPt]
    | false =>
      have hgood : goodPt p = true := by simp [goodPt, hp]
      simp only [scanRow, hp, Bool.false_eq_true, if_false, ih, scanPt_inView,
        List.all_cons, hgood, Bool.true_and]

theorem foldl_scanRow_inView (rows : List (List Pt2)) : ∀ s : ScanState,
    (rows.foldl scanRow s).inView = (s.inView && rows.all (fun r => r.all goodPt)) := by
  induction rows with
  | nil => intro s; simp
  | cons r rows ih =>
    intro s
    simp only [List.foldl_cons, ih, scanRow_inView, List.all_cons, Bool.and_assoc]

theorem scanRow_eq_foldl (ps : List Pt2) : ∀ s : ScanState,
    ps.all goodPt = true → scanRow s ps = ps.foldl scanPt s := by
  induction ps with
  | nil => intro s _; rfl
  | cons p ps ih =>
    intro s hall
    rw [List.all_cons, Bool.and_eq_true] at hall
    have hp : (isBad p.x || isBad p.y) = false := by
      have := hall.1
      simp only [goodPt, Bool.not_eq_true'] at this
      exact this
    simp only [scanRow, hp, Bool.false_eq_true, if_false, List.foldl_cons]
    exact ih (scanPt s p) hall.2

theorem foldl_scanRow_eq (rows : List (List Pt2)) : ∀ s : ScanState,
    rows.all (fun r => r.all goodPt) = true →
    rows.foldl scanRow s = rows.flatten.foldl scanPt s := by
  induction rows with
  | nil => intro s _; rfl
  | cons r rows ih =>
    intro s hall
    rw [List.all_cons, Bool.and_eq_true] at hall
    rw [List.foldl_cons, List.flatten_cons, List.foldl_append,
      scanRow_eq_foldl r s hall.1]
    exact ih _ hall.2

theorem foldl_scanPt_inView (ps : List Pt2) : ∀ s : ScanState,
    (ps.foldl scanPt s).inView = s.inView := by
  induction ps with
  | nil => intro s; rfl
  | cons p ps ih => intro s; rw [List.foldl_cons, ih, scanPt_inView]

theorem foldl_scanPt_minX (ps : List Pt2) : ∀ s : ScanState,
    (ps.foldl scanPt s).minX = (ps.map Pt2.x).foldl updMin s.minX := by
  induction ps with
  | nil => intro s; rfl
  | cons p ps ih => intro s; simp only [List.foldl_cons, List.map_cons, ih]; rfl

theorem foldl_scanPt_maxX (ps : List Pt2) : ∀ s : ScanState,
    (ps.foldl scanPt s).maxX = (ps.map Pt2.x).foldl updMax s.maxX := by
  induction ps with
  | nil => intro s; rfl
  | cons p ps ih => intro s; simp only [List.foldl_cons, List.map_cons, ih]; rfl

theorem foldl_scanPt_minY (ps : List Pt2) : ∀ s : ScanState,
    (ps.foldl scanPt s).minY = (ps.map Pt2.y).foldl updMin s.minY := by
  induction ps with
  | nil => intro s; rfl
  | cons p ps ih => intro s; simp only [List.foldl_cons, List.map_cons, ih]; rfl

theorem foldl_scanPt_maxY (ps : List Pt2) : ∀ s : ScanState,
    (ps.foldl scanPt s).maxY = (ps.map Pt2.y).foldl updMax s.maxY := by
  induction ps with
  | nil => intro s; rfl
  | cons p ps ih => intro s; simp only [List.foldl_cons, List.map_cons, ih]; rfl

theorem updMin_some (m x : ℚ) : updMin (some m) x = some (min m x) := by
  show (if x < m then some x else some m) = some (min m x)
  split_ifs with h
  · rw [min_eq_right h.le]
  · rw [min_eq_left (not_lt.mp h)]

theorem updMax_some (m x : ℚ) : updMax (some m) x = some (max m x) := by
  show (if x > m then some x else some m) = some (max m x)
  split_ifs with h
  · rw [max_eq_right h.le]
  · rw [max_eq_left (not_lt.mp h)]

theorem foldl_updMin_some (xs : List ℚ) : ∀ m : ℚ,
    xs.foldl updMin (some m) = some (xs.foldl min m) := by
  induction xs with
  | nil => intro m; rfl
  | cons x xs ih => intro m; rw [List.foldl_cons, updMin_some, ih, List.foldl_cons]

theorem foldl_updMax_some (xs : List ℚ) : ∀ m : ℚ,
    xs.foldl updMax (some m) = some (xs.foldl max m) := by
  induction xs with
  | nil => intro m; rfl
  | cons x xs ih => intro m; rw [List.foldl_cons, updMax_some, ih, List.foldl_cons]

theorem foldl_updMin_none {xs : List ℚ} (hne : xs ≠ []) :
    xs.foldl updMin none = some (listMin xs) := by
  cases xs with
  | nil => exact absurd rfl hne
  | cons x t =>
    rw [List.foldl_cons]
    exact foldl_updMin_some t x

theorem foldl_updMax_none {xs : List ℚ} (hne : xs ≠ []) :
    xs.foldl updMax none = some (listMax xs) := by
  cases xs with
  | nil => exact absurd rfl hne
  | cons x t =>
    rw [List.foldl_cons]
    exact foldl_updMax_some t x

theorem lt_foldl_min {c : ℚ} (xs : List ℚ) : ∀ {m : ℚ}, c < m →
    (∀ x ∈ xs, c < x) → c < xs.foldl min m := by
  induction xs with
  | nil => intro m hm _; exact hm
  | cons x xs ih =>
    intro m hm h
    rw [List.foldl_cons]
    exact ih (lt_min hm (h x (List.mem_cons_self _ _))) fun y hy => h y (List.mem_cons_of_mem _ hy)

theorem foldl_max_lt {c : ℚ} (xs : List ℚ) : ∀ {m : ℚ}, m < c →
    (∀ x ∈ xs, x < c) → xs.foldl max m < c := by
  induction xs with
  | nil => intro m hm _; exact hm
  | cons x xs ih =>
    intro m hm h
    rw [List.foldl_cons]
    exact ih (max_lt hm (h x (List.mem_cons_self _ _))) fun y hy => h y (List.mem_cons_of_mem _ hy)

theorem lt_listMin {c : ℚ} {xs : List ℚ} (hne : xs ≠ [])
    (h : ∀ x ∈ xs, c < x) : c < listMin xs := by
  cases xs with
  | nil => exact absurd rfl hne
  | cons x t =>
    exact lt_foldl_min t (h x (List.mem_cons_self _ _))
      fun y hy => h y (List.mem_cons_of_mem _ hy)

theorem listMax_lt {c : ℚ} {xs : List ℚ} (hne : xs ≠ [])
    (h : ∀ x ∈ xs, x < c) : listMax xs < c := by
  cases xs with
  | nil => exact absurd rfl hne
  | cons x t =>
    exact foldl_max_lt t (h x (List.mem_cons_self _ _))
      fun y hy => h y (List.mem_cons_of_mem _ hy)

theorem mem_sampleIdx (u : Fin 11) : u ∈ sampleIdx := by
  fin_cases u <;> decide

theorem mem_gridPts {g : Fin 11 → Fin 11 → Pt2} {p : Pt2}
    (hp : p ∈ gridPts g) : ∃ u v, p = g u v := by
  simp only [gridPts, gridRows, List.mem_flatten, List.mem_map] at hp
  obtain ⟨row, ⟨u, _, rfl⟩, hp⟩ := hp
  obtain ⟨v, _, rfl⟩ := List.mem_map.mp hp
  exact ⟨u, v, rfl⟩

theorem gridPts_mem (g : Fin 11 → Fin 11 → Pt2) (u v : Fin 11) :
    g u v ∈ gridPts g := by
  simp only [gridPts, gridRows, List.mem_flatten]
  exact ⟨sampleIdx.map (fun w => g u w),
    List.mem_map_of_mem _ (mem_sampleIdx u),
    List.mem_map_of_mem _ (mem_sampleIdx v)⟩

theorem gridPts_ne_nil (g : Fin 11 → Fin 11 → Pt2) : gridPts g ≠ [] := by
  intro h
  have := gridPts_mem g 0 0
  rw [h] at this
  exact absurd this (List.not_mem_nil _)

theorem rows_all_good {g : Fin 11 → Fin 11 → Pt2}
    (hg : ∀ u v, goodPt (g u v) = true) :
    (gridRows g).all (fun r => r.all goodPt) = true := by
  rw [List.all_eq_true]
  intro r hr
  obtain ⟨u, -, rfl⟩ := List.mem_map.mp hr
  rw [List.all_eq_true]
  intro p hp
  obtain ⟨v, -, rfl⟩ := List.mem_map.mp hp
  exact hg u v

theorem scanGrid_allGood (g : Fin 11 → Fin 11 → Pt2)
    (hg : ∀ u v, goodPt (g u v) = true) :
    (scanGrid (gridRows g)).inView = true ∧
    (scanGrid (gridRows g)).minX = some (gridMinX g) ∧
    (scanGrid (gridRows g)).maxX = some (gridMaxX g) ∧
    (scanGrid (gridRows g)).minY = some (gridMinY g) ∧
    (scanGrid (gridRows g)).maxY = some (gridMaxY g) := by
  have hall := rows_all_good hg
  have hx : (gridPts g).map Pt2.x ≠ [] := by
    simp [List.map_eq_nil_iff, gridPts_ne_nil g]
  have hy : (gridPts g).map Pt2.y ≠ [] := by
    simp [List.map_eq_nil_iff, gridPts_ne_nil g]
  unfold scanGrid
  rw [foldl_scanRow_eq _ _ hall]
  refine ⟨?_, ?_, ?_, ?_, ?_⟩
  · rw [foldl_scanPt_inView]
  · rw [foldl_scanPt_minX]
    exact foldl_updMin_none hx
  · rw [foldl_scanPt_maxX]
    exact foldl_updMax_none hx
  · rw [foldl_scanPt_minY]
    exact foldl_updMin_none hy
  · rw [foldl_scanPt_maxY]
    exact foldl_updMax_none hy

/-- C1: one `zoomToFit(speed)` step.  (i) If all 121 probe projections
have `x` and `y` strictly inside `(-0.8, 0.8)`, the zoom is multiplied
by exactly `1 + 0.1 * speed` and a follow-up step is scheduled.
(ii) If all probes are inside the hard bounds and some extremal
min/max lands in the close-fit band (`(-0.95, -0.9)` for a minimum,
`(0.9, 0.95)` for a maximum), the zoom is unchanged and no further
step is scheduled.  (iii) If any probe is outside the hard bounds,
the zoom is multiplied by `1 - 0.1 * speed` and a follow-up step is
scheduled. -/
theorem C1_zoomToFit_step (g : Fin 11 → Fin 11 → Pt2) (speed z : ℚ) :
    ((∀ u v, -0.8 < (g u v).x ∧ (g u v).x < 0.8 ∧
        -0.8 < (g u v).y ∧ (g u v).y < 0.8) →
      zoomToFit g speed z = ⟨z * (1 + 0.1 * speed), true⟩) ∧
    ((∀ u v, goodPt (g u v) = true) →
      (inMinRange (gridMinX g) || inMaxRange (gridMaxX g) ||
       inMinRange (gridMinY g) || inMaxRange (gridMaxY g)) = true →
      zoomToFit g speed z = ⟨z, false⟩) ∧
    ((∃ u v, goodPt (g u v) = false) →
      zoomToFit g speed z = ⟨z * (1 - 0.1 * speed), true⟩) := by
  refine ⟨?_, ?_, ?_⟩
  · intro hin
    have hg : ∀ u v, goodPt (g u v) = true := by
      intro u v
      obtain ⟨h1, h2, h3, h4⟩ := hin u v
      simp only [goodPt, isBad, virtualMinLower, virtualMaxUpper,
        Bool.not_eq_true', Bool.or_eq_false_iff, decide_eq_false_iff_not,
        not_lt]
      refine ⟨⟨?_, ?_⟩, ?_, ?_⟩ <;> norm_num <;> linarith
    obtain ⟨hiv, hminx, hmaxx, hminy, hmaxy⟩ := scanGrid_allGood g hg
    have hxlt : ∀ x ∈ (gridPts g).map Pt2.x, (-0.8 : ℚ) < x := by
      intro x hx
      obtain ⟨p, hp, rfl⟩ := List.mem_map.mp hx
      obtain ⟨u, v, rfl⟩ := mem_gridPts hp
      exact (hin u v).1
    have hxgt : ∀ x ∈ (gridPts g).map Pt2.x, x < (0.8 : ℚ) := by
      intro x hx
      obtain ⟨p, hp, rfl⟩ := List.mem_map.mp hx
      obtain ⟨u, v, rfl⟩ := mem_gridPts hp
      exact (hin u v).2.1
    have hylt : ∀ y ∈ (gridPts g).map Pt2.y, (-0.8 : ℚ) < y := by
      intro y hy
      obtain ⟨p, hp, rfl⟩ := List.mem_map.mp hy
      obtain ⟨u, v, rfl⟩ := mem_gridPts hp
      exact (hin u v).2.2.1
    have hygt : ∀ y ∈ (gridPts g).map Pt2.y, y < (0.8 : ℚ) := by
      intro y hy
      obtain ⟨p, hp, rfl⟩ := List.mem_map.mp hy
      obtain ⟨u, v, rfl⟩ := mem_gridPts hp
      exact (hin u v).2.2.2
    have hnex : (gridPts g).map Pt2.x ≠ [] := by
      simp [List.map_eq_nil_iff, gridPts_ne_nil g]
    have hney : (gridPts g).map Pt2.y ≠ [] := by
      simp [List.map_eq_nil_iff, gridPts_ne_nil g]
    have hb1 : (-0.8 : ℚ) < gridMinX g := lt_listMin hnex hxlt
    have hb2 : gridMaxX g < (0.8 : ℚ) := listMax_lt hnex hxgt
    have hb3 : (-0.8 : ℚ) < gridMinY g := lt_listMin hney hylt
    have hb4 : gridMaxY g < (0.8 : ℚ) := listMax_lt hney hygt
    have hclose : closeFitOf (scanGrid (gridRows g)) = false := by
      rw [closeFitOf, hminx, hmaxx, hminy, hmaxy]
      simp only [inMinRangeOpt, inMaxRangeOpt, inMinRange, inMaxRange,
        virtualMinLower, virtualMinUpper, virtualMaxLower, virtualMaxUpper,
        Bool.or_eq_false_iff, Bool.and_eq_false_iff, decide_eq_false_iff_not,
        not_lt]
      refine ⟨⟨⟨Or.inr (by linarith), Or.inl (by linarith)⟩,
        Or.inr (by linarith)⟩, Or.inl (by linarith)⟩
    simp only [zoomToFit, hiv, hclose, Bool.false_eq_true, if_false, if_true]
  · intro hg hband
    obtain ⟨hiv, hminx, hmaxx, hminy, hmaxy⟩ := scanGrid_allGood g hg
    have hclose : closeFitOf (scanGrid (gridRows g)) = true := by
      rw [closeFitOf, hminx, hmaxx, hminy, hmaxy]
      simpa [inMinRangeOpt, inMaxRangeOpt] using hband
    simp only [zoomToFit, hiv, hclose, if_true]
  · intro hbad
    obtain ⟨u, v, hbad⟩ := hbad
    have hiv : (scanGrid (gridRows g)).inView = false := by
      unfold scanGrid
      rw [foldl_scanRow_inView]
      simp only [Bool.true_and]
      cases hall : (gridRows g).all (fun r => r.all goodPt) with
      | false => rfl
      | true =>
        exfalso
        rw [List.all_eq_true] at hall
        have hrow := hall (sampleIdx.map (fun w => g u w))
          (List.mem_map_of_mem _ (mem_sampleIdx u))
        rw [List.all_eq_true] at hrow
        have := hrow (g u v) (List.mem_map_of_mem _ (mem_sampleIdx v))
        rw [hbad] at this
        exact Bool.false_ne_true this
    simp only [zoomToFit, hiv, Bool.false_eq_true, if_false]

/-- Witness for C1: on the constant grid whose probes all project to
the origin, one `zoomToFit 1` step multiplies the zoom by `1.1` and
reschedules. -/
theorem C1_zoomToFit_step_witness :
    zoomToFit (fun _ _ => ⟨0, 0⟩) 1 1 = ⟨1 * (1 + 0.1 * 1), true⟩ :=
  (C1_zoomToFit_step (fun _ _ => ⟨0, 0⟩) 1 1).1
    (fun _ _ => by norm_num)

end CanvasView
